import Mathlib

/-!
Verification of the vmware-svga-vulkan-impl device model: a shallow
embedding of the register file (src/chip.rs), the FIFO ring reader
(src/fifo_processor/fifo_reader.rs), the triple-buffer mailbox
(src/mailbox.rs), the shared-memory view (src/shared_mem.rs) and the
output read path (src/fifo_processor/fifo_state.rs, src/ffi/entry.rs).

Machine integers are modelled as Nat; all the modelled operations keep
their values far below 2^32 except where an explicit reduction is noted.
Shared memory is modelled as a list of u32 words indexed from the base of
the host FIFO view; atomic loads and stores become plain reads and writes
because every theorem below is about the single-threaded semantics (the
CAS loops in the source always succeed on the first try when no other
thread races, and the suspend callback is modelled as immediately
requesting termination, which is the path the worker takes on shutdown).
Panics (assert and explicit panic) are modelled as Option.none.
-/

namespace Svga

/-! ## FIFO header word indices (fifo_reader.rs lines 6 to 9) -/

def SVGA_FIFO_MIN : Nat := 0
def SVGA_FIFO_MAX : Nat := 1
def SVGA_FIFO_NEXT_CMD : Nat := 2
def SVGA_FIFO_STOP : Nat := 3

/-! ## FifoReader (fifo_reader.rs)

The reader state carries the cached bounds and the pending borrow count;
the shared FIFO view is a list of words. Loads of header words become
`List.getD`, the store of STOP becomes `List.set`. -/

structure FifoReader where
  borrowed_cmds : Nat
  min : Nat
  max : Nat
  fifo_bytes : Nat
  deriving Repr, DecidableEq

/-- Embedding of FifoReader::new (lines 38 to 55): loads MIN and MAX,
asserts MIN < MAX and (MAX - MIN) divisible by 4; none models the panic. -/
def FifoReader.new (mem : List Nat) : Option FifoReader :=
  let mn := mem.getD SVGA_FIFO_MIN 0
  let mx := mem.getD SVGA_FIFO_MAX 0
  if mn < mx ∧ (mx - mn) % 4 = 0 then
    some { borrowed_cmds := 0, min := mn, max := mx, fifo_bytes := mx - mn }
  else none

/-- Embedding of FifoReader::available (lines 57 to 73). The guard models
the assert on the cursor range; none models the panic. The three branches
mirror the match on stop.cmp(next_cmd), including the placement of the
borrowed_cmds subtraction in each branch. -/
def FifoReader.available (r : FifoReader) (mem : List Nat) : Option Nat :=
  let stp := mem.getD SVGA_FIFO_STOP 0
  let nxt := mem.getD SVGA_FIFO_NEXT_CMD 0
  if r.min ≤ stp ∧ r.min ≤ nxt ∧ stp < r.max ∧ nxt < r.max then
    if stp < nxt then some ((nxt - stp - r.borrowed_cmds) / 4)
    else if stp = nxt then some 0
    else some ((r.max - stp + (nxt - r.min)) / 4 - r.borrowed_cmds)
  else none

/-- Embedding of FifoReader::advance (lines 157 to 168): the CAS loop, with
no racing writer, succeeds at once; returns the new STOP value and the
updated memory. -/
def FifoReader.advance (r : FifoReader) (mem : List Nat) (amount : Nat) :
    Nat × List Nat :=
  let old_pos := mem.getD SVGA_FIFO_STOP 0
  let new_pos := (old_pos + amount * 4 - r.min) % r.fifo_bytes + r.min
  (new_pos, mem.set SVGA_FIFO_STOP new_pos)

/-- Embedding of FifoReader::cleanup_borrow (lines 146 to 154): commit a
pending borrow by advancing STOP, else just load STOP. -/
def FifoReader.cleanup_borrow (r : FifoReader) (mem : List Nat) :
    Nat × List Nat × FifoReader :=
  if r.borrowed_cmds ≠ 0 then
    let s := FifoReader.advance r mem r.borrowed_cmds
    (s.1, s.2, { r with borrowed_cmds := 0 })
  else
    (mem.getD SVGA_FIFO_STOP 0, mem, r)

/-- Embedding of FifoReader::next (lines 171 to 194). When STOP equals
NEXT_CMD the source calls the suspend callback and returns none if it asks
to terminate; with no concurrent producer nothing can change, so the model
returns none there. Otherwise it reads the word at byte offset STOP and the
CAS publishes the advanced STOP at once. -/
def FifoReader.next (r : FifoReader) (mem : List Nat) :
    Option Nat × List Nat × FifoReader :=
  let c := FifoReader.cleanup_borrow r mem
  let old_pos := c.1
  let mem1 := c.2.1
  let r1 := c.2.2
  let next_cmd := mem1.getD SVGA_FIFO_NEXT_CMD 0
  if old_pos = next_cmd then (none, mem1, r1)
  else
    let cmd := mem1.getD (old_pos / 4) 0
    let new_pos := (old_pos + 4 - r1.min) % r1.fifo_bytes + r1.min
    (some cmd, mem1.set SVGA_FIFO_STOP new_pos, r1)

/-- The words of the shared view starting at a word index: the slice
make_fifo_slice (lines 132 to 143) exposes, read out as a list. -/
def readWords (mem : List Nat) (wordIdx n : Nat) : List Nat :=
  (List.range n).map (fun k => mem.getD (wordIdx + k) 0)

/-- Embedding of FifoReader::try_borrow (lines 88 to 129). The returned
Bool records the path: false for the fast path (a direct borrow into
shared memory), true for the wrap slow path (two copies into the scratch
buffer). The scratch buffer bytes beyond the two copied spans are only
reachable with misaligned cursors and are not modelled. -/
def FifoReader.try_borrow (r : FifoReader) (mem : List Nat) (cmds : Nat) :
    Option (List Nat × Bool) × List Nat × FifoReader :=
  let c := FifoReader.cleanup_borrow r mem
  let stp := c.1
  let mem1 := c.2.1
  let r1 := c.2.2
  let next_cmd := mem1.getD SVGA_FIFO_NEXT_CMD 0
  if stp = next_cmd then (none, mem1, r1)
  else
    let effective_end := if stp ≤ next_cmd then next_cmd else r1.max
    if stp + cmds * 4 ≤ effective_end then
      (some (readWords mem1 (stp / 4) cmds, false), mem1,
        { r1 with borrowed_cmds := cmds })
    else
      let wrap_remain := stp + cmds * 4 - effective_end
      if next_cmd < stp ∧ wrap_remain + r1.min ≤ next_cmd then
        let mid_cmd := cmds - wrap_remain / 4
        let fst := readWords mem1 (stp / 4) mid_cmd
        let snd := readWords mem1 (r1.min / 4) (wrap_remain / 4)
        let a := FifoReader.advance r1 mem1 cmds
        (some (fst ++ snd, true), a.2, r1)
      else (none, mem1, r1)

/-- Iterate FifoReader.next a fixed number of times, collecting results. -/
def FifoReader.drain : Nat → FifoReader → List Nat →
    List (Option Nat) × List Nat × FifoReader
  | 0, r, mem => ([], mem, r)
  | n + 1, r, mem =>
    let s := FifoReader.next r mem
    let rest := FifoReader.drain n s.2.2 s.2.1
    (s.1 :: rest.1, rest.2.1, rest.2.2)

/-! ## Fixtures from the unit tests (fifo_reader.rs lines 205 to 307)

The setup function builds a 10-word region: MIN = 16, MAX = 40, words at
byte offsets 16..40 equal [1, 2, 3, 4, 5, 6]. With cmds = 7 the producer
has wrapped: NEXT_CMD = 20; the wrap-drain fixture then advances STOP by
two commands to 24. The basic fixture has STOP = 16, NEXT_CMD = 36. -/

def memBasic : List Nat := [16, 40, 36, 16, 1, 2, 3, 4, 5, 6]

def memWrap : List Nat := [16, 40, 20, 24, 1, 2, 3, 4, 5, 6]

def readerFix : FifoReader :=
  { borrowed_cmds := 0, min := 16, max := 40, fifo_bytes := 24 }

/-! ## Register file (src/chip.rs and src/constants.rs) -/

def SVGA_INDEX_PORT : Nat := 0
def SVGA_VALUE_PORT : Nat := 1
def SVGA_VER_2 : Nat := 0x90000002
def SVGA_REG_ID : Nat := 0
def SVGA_REG_ENABLE : Nat := 1
def SVGA_REG_WIDTH : Nat := 2
def SVGA_REG_HEIGHT : Nat := 3
def SVGA_REG_BITS_PER_PIXEL : Nat := 7
def SVGA_REG_BYTES_PER_LINE : Nat := 12
def SVGA_REG_FB_SIZE : Nat := 16
def SVGA_REG_CAPABILITIES : Nat := 17
def SVGA_REG_MEM_SIZE : Nat := 19
def SVGA_REG_CONFIG_DONE : Nat := 20
def SVGA_REG_SYNC : Nat := 21
def SVGA_REG_BUSY : Nat := 22

/-- Reduction modulus of a 32-bit register value. -/
def u32Mod : Nat := 2 ^ 32

/-- The chip state (chip.rs lines 8 to 23) together with the two atomic
flags of the shared FifoState that the register file reads and writes
(fifo_state.enabled and fifo_state.busy). The worker thread handle is not
modelled; spawning and joining it has no effect on these fields. -/
structure Chip where
  enabled : Bool
  pending_io_addr : Nat
  width : Nat
  height : Nat
  fb_len : Nat
  fifo_len : Nat
  fifo_enabled : Bool
  busy : Bool
  negotiated_version : Nat
  deriving Repr, DecidableEq

/-- Embedding of Chip::new (lines 26 to 43), restricted to the modelled
fields; the region lengths come from the configuration block. -/
def Chip.new (fb_len fifo_len : Nat) : Chip :=
  { enabled := false, pending_io_addr := 0, width := 0, height := 0,
    fb_len := fb_len, fifo_len := fifo_len, fifo_enabled := false,
    busy := false, negotiated_version := SVGA_VER_2 }

/-- Embedding of Chip::read_reg (lines 45 to 59): a match on the register
index with a catch-all arm that logs and returns 0. The u32 products and
casts are reduced mod 2^32. -/
def Chip.read_reg (c : Chip) (reg : Nat) : Nat :=
  if reg = SVGA_REG_ID then c.negotiated_version
  else if reg = SVGA_REG_ENABLE then (if c.enabled then 1 else 0)
  else if reg = SVGA_REG_BYTES_PER_LINE then c.width * 4 % u32Mod
  else if reg = SVGA_REG_FB_SIZE then c.fb_len % u32Mod
  else if reg = SVGA_REG_CAPABILITIES then 0
  else if reg = SVGA_REG_MEM_SIZE then c.fifo_len % u32Mod
  else if reg = SVGA_REG_BUSY then (if c.busy then 1 else 0)
  else 0

/-- Embedding of Chip::write_reg (lines 61 to 106); none models the two
panics (width or height changed while configured, bits per pixel other
than 32). SYNC and CONFIG_DONE also start or join the worker thread,
which does not touch the modelled fields; the catch-all arm only logs. -/
def Chip.write_reg (c : Chip) (reg val : Nat) : Option Chip :=
  if reg = SVGA_REG_ID then
    some { c with negotiated_version := min c.negotiated_version val }
  else if reg = SVGA_REG_ENABLE then some { c with enabled := val != 0 }
  else if reg = SVGA_REG_WIDTH then
    (if c.fifo_enabled then none else some { c with width := val })
  else if reg = SVGA_REG_HEIGHT then
    (if c.fifo_enabled then none else some { c with height := val })
  else if reg = SVGA_REG_BITS_PER_PIXEL then
    (if val = 32 then some c else none)
  else if reg = SVGA_REG_SYNC then some { c with busy := true }
  else if reg = SVGA_REG_CONFIG_DONE then
    some { c with fifo_enabled := val != 0 }
  else some c

/-- Embedding of Chip::io_read4 (lines 108 to 116): the VALUE port reads
the register named by the latched index; other ports read as 0. -/
def Chip.io_read4 (c : Chip) (addr : Nat) : Nat :=
  if addr = SVGA_VALUE_PORT then Chip.read_reg c c.pending_io_addr else 0

/-- A sequence of guest writes to the ID register, each through write_reg
(which never panics on register 0). -/
def Chip.applyIdWrites (c : Chip) (vs : List Nat) : Chip :=
  vs.foldl (fun a v => (Chip.write_reg a SVGA_REG_ID v).getD a) c

/-! ## Mailbox (src/mailbox.rs)

The three slot locks are external state: availability of a try_write on a
slot is an oracle. The first phase (lines 57 to 66) consults the latest
index loaded once at entry; the retry loop (lines 69 to 83) re-loads
latest on every attempt, so the oracles are indexed by attempt number. -/

/-- The first acquisition phase of Mailbox::borrow_write: try the two
slots after the loaded latest index, in order. -/
def Mailbox.borrow_write_first (latest0 : Nat) (avail : Nat → Bool) :
    Option Nat :=
  if avail ((latest0 + 1) % 3) then some ((latest0 + 1) % 3)
  else if avail ((latest0 + 2) % 3) then some ((latest0 + 2) % 3)
  else none

/-- The retry loop of Mailbox::borrow_write, fuelled: attempt `iter`
re-loads latest (the reload oracle) and tries only the slot after it
(avail oracle, with a 1-second timeout in the source). Returns the
acquired slot together with the latest value loaded at that attempt. -/
def Mailbox.borrow_write_retry (reload : Nat → Nat) (avail : Nat → Nat → Bool) :
    Nat → Nat → Option (Nat × Nat)
  | _, 0 => none
  | iter, fuel + 1 =>
    let lat := reload iter
    let idx := (lat + 1) % 3
    if avail iter idx then some (idx, lat)
    else Mailbox.borrow_write_retry reload avail (iter + 1) fuel

/-- Embedding of Mailbox::borrow_write (lines 54 to 84): the fast phase
against the latest index loaded at entry, then the fuelled retry loop.
The result pairs the acquired slot index with the latest value loaded at
the start of the successful acquisition attempt. -/
def Mailbox.borrow_write (latest0 : Nat) (avail0 : Nat → Bool)
    (reload : Nat → Nat) (avail : Nat → Nat → Bool) (fuel : Nat) :
    Option (Nat × Nat) :=
  match Mailbox.borrow_write_first latest0 avail0 with
  | some idx => some (idx, latest0)
  | none => Mailbox.borrow_write_retry reload avail 0 fuel

/-- The latest-published-slot index of the mailbox. -/
structure MailboxState where
  latest : Nat
  deriving Repr, DecidableEq

/-- The writer handle: the index of the slot it locked. -/
structure MailboxWriter where
  index : Nat
  deriving Repr, DecidableEq

/-- Embedding of the Drop impl for MailboxWriter (lines 39 to 43): publish
by storing the written slot index into latest. -/
def MailboxWriter.dropHandle (m : MailboxState) (w : MailboxWriter) :
    MailboxState :=
  { m with latest := w.index }

/-! ## SharedMem over u32 and the FIFO view (src/shared_mem.rs,
src/fifo_processor/fifo_state.rs) -/

/-- A SharedMem of u32: base byte address and byte length
(shared_mem.rs lines 11 to 15). -/
structure SharedMem where
  ptr : Nat
  len : Nat
  deriving Repr, DecidableEq

/-- Embedding of SharedMem::new for u32 elements (lines 21 to 41): asserts
non-null base, length divisible by the element size 4, base aligned to 4;
none models the panics. -/
def SharedMem.new (ptr len : Nat) : Option SharedMem :=
  if ptr ≠ 0 ∧ len % 4 = 0 ∧ ptr % 4 = 0 then some { ptr := ptr, len := len }
  else none

/-- The bounds check of SharedMem::<u32>::at (lines 94 to 97): word index
`offset` is accepted exactly when offset * 4 < len; the returned atomic
lives at byte address ptr + offset * 4. -/
def SharedMem.at_ok (m : SharedMem) (offset : Nat) : Bool :=
  offset * 4 < m.len

def MAGIC_OFFSET : Nat := 2

/-- The fifo field built by FifoState::new (fifo_state.rs lines 34 to 47):
the base pointer is advanced by MAGIC_OFFSET u32 words (8 bytes) while the
length stays the unreduced config.fifo_len. -/
def FifoState.fifo_view (fifo fifo_len : Nat) : Option SharedMem :=
  SharedMem.new (fifo + MAGIC_OFFSET * 4) fifo_len

/-! ## Output read path (fifo_state.rs lines 63 to 88, ffi/entry.rs
lines 113 to 121) -/

/-- Embedding of FifoState::read_output. The frame is the content of the
mailbox slot borrow_read returns; the destination pointer is abstracted to
its null flag. The first component is the returned Bool, the second
records whether the copy into the caller buffer was performed. -/
def FifoState.read_output (frame : Option (List Nat)) (ptr_is_null : Bool)
    (len : Nat) : Bool × Bool :=
  if ptr_is_null then (false, false)
  else
    match frame with
    | some data => if data.length * 4 ≠ len then (false, false) else (true, true)
    | none => (false, false)

/-- Embedding of vmsvga_vk_output_read: locks the chip and delegates to
FifoState::read_output. -/
def vmsvga_vk_output_read (frame : Option (List Nat)) (ptr_is_null : Bool)
    (len : Nat) : Bool × Bool :=
  FifoState.read_output frame ptr_is_null len

/-- Chip state with width 64 and height 32, used to exercise read_reg. -/
def chipFix : Chip :=
  { enabled := true, pending_io_addr := SVGA_REG_WIDTH, width := 64,
    height := 32, fb_len := 0, fifo_len := 0, fifo_enabled := false,
    busy := false, negotiated_version := SVGA_VER_2 }

/-! ## Theorems -/

/-- Claim C1, counterexample: in the basic fixture (STOP = 16,
NEXT_CMD = 36) a single call to next changes the shared STOP header word
from 16 to 20 before any commit, so a peek is not free of effect on STOP.
The source has no view/commit transaction at all: next publishes the
advanced cursor through its CAS at once. -/
theorem next_modifies_stop_cex :
    memBasic.getD SVGA_FIFO_STOP 0 = 16 ∧
    ((FifoReader.next readerFix memBasic).2.1).getD SVGA_FIFO_STOP 0 = 20 := by
  decide

/-- Claim C1, amended: FifoReader::next is not a deferred peek. For every
reader with no pending borrow and a non-empty FIFO, one call to next
returns the word at byte offset STOP and immediately stores the advanced
cursor (STOP + 4 wrapped into the ring) into the shared STOP word; there
is no separate commit step. -/
theorem next_advances_stop_immediately (r : FifoReader) (mem : List Nat)
    (hb : r.borrowed_cmds = 0)
    (hne : mem.getD SVGA_FIFO_STOP 0 ≠ mem.getD SVGA_FIFO_NEXT_CMD 0) :
    FifoReader.next r mem =
      (some (mem.getD (mem.getD SVGA_FIFO_STOP 0 / 4) 0),
       mem.set SVGA_FIFO_STOP
         ((mem.getD SVGA_FIFO_STOP 0 + 4 - r.min) % r.fifo_bytes + r.min),
       r) := by
  have h1 : FifoReader.cleanup_borrow r mem = (mem.getD SVGA_FIFO_STOP 0, mem, r) := by
    rw [FifoReader.cleanup_borrow, if_neg]
    simp [hb]
  simp only [FifoReader.next, h1]
  rw [if_neg hne]

/-- Claim C1, witness: the amended statement at the basic fixture. -/
theorem next_advances_stop_immediately_witness :
    FifoReader.next readerFix memBasic =
      (some 1, memBasic.set SVGA_FIFO_STOP 20, readerFix) := by
  rw [next_advances_stop_immediately readerFix memBasic (by decide) (by decide)]
  decide

/-- Claim C3, counterexample: with width 64 and height 32, reading
register WIDTH (2) or HEIGHT (3) returns 0, not the stored field: read_reg
has no arm for these indices and falls through to the unknown-register
arm. The same 0 comes back through the VALUE port with index 2 latched. -/
theorem read_reg_width_height_cex :
    chipFix.width = 64 ∧ Chip.read_reg chipFix SVGA_REG_WIDTH = 0 ∧
    chipFix.height = 32 ∧ Chip.read_reg chipFix SVGA_REG_HEIGHT = 0 ∧
    chipFix.pending_io_addr = SVGA_REG_WIDTH ∧
    Chip.io_read4 chipFix SVGA_VALUE_PORT = 0 := by
  decide

/-- Claim C3, amended: for every chip state, a register read of WIDTH
(index 2) or of HEIGHT (index 3) takes the unknown-register arm of
read_reg and returns 0, regardless of the width and height fields. -/
theorem read_reg_width_height_returns_zero (c : Chip) :
    Chip.read_reg c SVGA_REG_WIDTH = 0 ∧ Chip.read_reg c SVGA_REG_HEIGHT = 0 := by
  constructor <;>
    simp [Chip.read_reg, SVGA_REG_ID, SVGA_REG_ENABLE, SVGA_REG_WIDTH,
      SVGA_REG_HEIGHT, SVGA_REG_BYTES_PER_LINE, SVGA_REG_FB_SIZE,
      SVGA_REG_CAPABILITIES, SVGA_REG_MEM_SIZE, SVGA_REG_BUSY]

/-- Claim C4: in the wrapped fixture (MIN = 16, MAX = 40, words
[1, 2, 3, 4, 5, 6] at byte offsets 16..40, STOP = 24, NEXT_CMD = 20) the
freshly constructed reader reports 5 available commands, five successive
next calls yield 3, 4, 5, 6, 1 in that order, and afterwards the shared
STOP word equals 20. -/
theorem wrap_drain_fixture :
    FifoReader.new memWrap = some readerFix ∧
    FifoReader.available readerFix memWrap = some 5 ∧
    (FifoReader.drain 5 readerFix memWrap).1 =
      [some 3, some 4, some 5, some 6, some 1] ∧
    ((FifoReader.drain 5 readerFix memWrap).2.1).getD SVGA_FIFO_STOP 0 = 20 := by
  decide

/-- Claim C5, counterexample: in the wrapped fixture (STOP = 24,
NEXT_CMD = 20), borrowing 3 words from the fresh reader yields [3, 4, 5]
through the fast path (a direct borrow, flag false), not [5, 6, 1] through
the wrap slow path: the span 24..36 does not cross MAX = 40. -/
theorem borrow_wrap_fixture_cex :
    (FifoReader.try_borrow readerFix memWrap 3).1 = some ([3, 4, 5], false) ∧
    (FifoReader.try_borrow readerFix memWrap 3).1 ≠ some ([5, 6, 1], true) := by
  decide

/-- Claim C5, amended: in the wrapped fixture, after first borrowing 2
words (which yields [3, 4] through the fast path), borrowing 3 words
yields [5, 6, 1] through the wrap slow path (a copied buffer, flag true),
and that slow-path borrow advances the shared STOP word to 20 at once. -/
theorem borrow_wrap_after_two_fixture :
    (FifoReader.try_borrow readerFix memWrap 2).1 = some ([3, 4], false) ∧
    (FifoReader.try_borrow (FifoReader.try_borrow readerFix memWrap 2).2.2
        (FifoReader.try_borrow readerFix memWrap 2).2.1 3).1 =
      some ([5, 6, 1], true) ∧
    ((FifoReader.try_borrow (FifoReader.try_borrow readerFix memWrap 2).2.2
        (FifoReader.try_borrow readerFix memWrap 2).2.1 3).2.1).getD
      SVGA_FIFO_STOP 0 = 20 := by
  decide

/-- Claim C9: for every published frame state and every length, the output
read called with a null destination pointer returns false and performs no
copy, both through FifoState::read_output and through the exported
vmsvga_vk_output_read. -/
theorem read_output_null_pointer (frame : Option (List Nat)) (len : Nat) :
    vmsvga_vk_output_read frame true len = (false, false) ∧
    FifoState.read_output frame true len = (false, false) := by
  constructor <;> rfl

/-- The Int remainder of a non-negative difference below the modulus. -/
theorem emod_toNat_of_le (a b L : Nat) (hba : b ≤ a) (hlt : a - b < L) :
    (((a : Int) - (b : Int)) % (L : Int)).toNat = a - b := by
  have h0 : ((a : Int) - (b : Int)) = ((a - b : Nat) : Int) := by omega
  rw [h0, Int.emod_eq_of_lt (by omega) (by exact_mod_cast hlt)]
  omega

/-- The Int remainder of a negative difference strictly above minus the
modulus: the modulus is added once. -/
theorem emod_toNat_of_lt (a b L : Nat) (hab : a < b) (hba : b - a < L) :
    (((a : Int) - (b : Int)) % (L : Int)).toNat = a + L - b := by
  have h0 : ((a : Int) - (b : Int)) % (L : Int)
      = ((a : Int) - (b : Int) + (L : Int)) % (L : Int) :=
    (Int.add_emod_self).symm
  have h1 : ((a : Int) - (b : Int) + (L : Int)) = ((a + L - b : Nat) : Int) := by
    omega
  rw [h0, h1, Int.emod_eq_of_lt (by omega) (by omega)]
  omega

/-- Claim C2: for every FifoReader constructed over a valid FIFO header
(MIN < MAX, MAX minus MIN divisible by 4) whose cursors STOP and NEXT_CMD
both lie in [MIN, MAX), available returns
((NEXT_CMD - STOP) mod FIFO_LEN_BYTES) / 4 with FIFO_LEN_BYTES =
MAX - MIN, the remainder taken as the mathematical (Euclidean) one. -/
theorem available_mod_formula (mem : List Nat) (r : FifoReader)
    (hnew : FifoReader.new mem = some r)
    (hs1 : r.min ≤ mem.getD SVGA_FIFO_STOP 0)
    (hs2 : mem.getD SVGA_FIFO_STOP 0 < r.max)
    (hn1 : r.min ≤ mem.getD SVGA_FIFO_NEXT_CMD 0)
    (hn2 : mem.getD SVGA_FIFO_NEXT_CMD 0 < r.max) :
    FifoReader.available r mem =
      some ((((mem.getD SVGA_FIFO_NEXT_CMD 0 : Int) -
          (mem.getD SVGA_FIFO_STOP 0 : Int)) %
            ((r.max - r.min : Nat) : Int)).toNat / 4) := by
  rw [FifoReader.new] at hnew
  split at hnew
  case isFalse => exact absurd hnew (by simp)
  case isTrue h =>
    obtain ⟨hlt, hmod⟩ := h
    obtain rfl : FifoReader.mk 0 (mem.getD SVGA_FIFO_MIN 0)
        (mem.getD SVGA_FIFO_MAX 0)
        (mem.getD SVGA_FIFO_MAX 0 - mem.getD SVGA_FIFO_MIN 0) = r :=
      Option.some.inj hnew
    rw [FifoReader.available]
    rw [if_pos ⟨hs1, hn1, hs2, hn2⟩]
    set mn := mem.getD SVGA_FIFO_MIN 0 with hmn
    set mx := mem.getD SVGA_FIFO_MAX 0 with hmx
    set stp := mem.getD SVGA_FIFO_STOP 0 with hstp
    set nxt := mem.getD SVGA_FIFO_NEXT_CMD 0 with hnxt
    simp only at hs1 hs2 hn1 hn2 hlt ⊢
    rcases Nat.lt_trichotomy stp nxt with hc | hc | hc
    · rw [if_pos hc, emod_toNat_of_le nxt stp (mx - mn) (Nat.le_of_lt hc)
        (by omega)]
      simp
    · rw [if_neg (by omega), if_pos hc, hc]
      simp
    · rw [if_neg (by omega), if_neg (by omega),
        emod_toNat_of_lt nxt stp (mx - mn) hc (by omega)]
      congr 1
      omega

/-- Claim C2, witness: the formula evaluated at the wrapped fixture, where
STOP = 24, NEXT_CMD = 20 and FIFO_LEN_BYTES = 24 give 5 commands. -/
theorem available_mod_formula_witness :
    FifoReader.available readerFix memWrap = some 5 :=
  (available_mod_formula memWrap readerFix (by decide) (by decide) (by decide)
    (by decide) (by decide)).trans (by decide)

/-- Monotonicity of a sequence of ID-register writes. -/
theorem applyIdWrites_mono (vs : List Nat) :
    ∀ c : Chip, (Chip.applyIdWrites c vs).negotiated_version ≤
      c.negotiated_version := by
  induction vs with
  | nil => intro c; exact Nat.le_refl _
  | cons v vs ih =>
    intro c
    have h2 : Chip.applyIdWrites c (v :: vs) =
        Chip.applyIdWrites
          { c with negotiated_version := min c.negotiated_version v } vs := by
      simp [Chip.applyIdWrites, Chip.write_reg, SVGA_REG_ID]
    rw [h2]
    exact Nat.le_trans (ih _) (by simp)

/-- Claim C6: negotiated_version is initialized to SVGA_VER_2 =
0x90000002; a write to register ID stores min(negotiated_version, val); a
read of register ID returns negotiated_version; every sequence of guest
writes to ID is monotone non-increasing on it; and a write of 0xFFFFFFFF
never raises it. -/
theorem negotiated_version_monotone :
    (∀ fb_len fifo_len : Nat,
      (Chip.new fb_len fifo_len).negotiated_version = SVGA_VER_2) ∧
    (∀ (c : Chip) (v : Nat),
      Chip.write_reg c SVGA_REG_ID v =
        some { c with negotiated_version := min c.negotiated_version v }) ∧
    (∀ c : Chip, Chip.read_reg c SVGA_REG_ID = c.negotiated_version) ∧
    (∀ (c : Chip) (vs : List Nat),
      (Chip.applyIdWrites c vs).negotiated_version ≤ c.negotiated_version) ∧
    (∀ c : Chip,
      ((Chip.write_reg c SVGA_REG_ID 0xFFFFFFFF).getD c).negotiated_version ≤
        c.negotiated_version) := by
  refine ⟨fun _ _ => rfl, fun c v => rfl, fun c => rfl,
    fun c vs => applyIdWrites_mono vs c, fun c => ?_⟩
  simp [Chip.write_reg, SVGA_REG_ID]

/-- Claim C7: a write to WIDTH (2) or HEIGHT (3) is fatal exactly when
fifo.enabled is true and otherwise stores the value into the field; a
write to BITS_PER_PIXEL (7) is fatal exactly when the value is not 32 and
otherwise leaves the chip unchanged. -/
theorem write_reg_fatal_conditions (c : Chip) (v : Nat) :
    Chip.write_reg c SVGA_REG_WIDTH v =
      (if c.fifo_enabled then none else some { c with width := v }) ∧
    Chip.write_reg c SVGA_REG_HEIGHT v =
      (if c.fifo_enabled then none else some { c with height := v }) ∧
    Chip.write_reg c SVGA_REG_BITS_PER_PIXEL v =
      (if v = 32 then some c else none) := by
  refine ⟨?_, ?_, ?_⟩ <;>
    simp [Chip.write_reg, SVGA_REG_ID, SVGA_REG_ENABLE, SVGA_REG_WIDTH,
      SVGA_REG_HEIGHT, SVGA_REG_BITS_PER_PIXEL, SVGA_REG_SYNC,
      SVGA_REG_CONFIG_DONE]

/-- The retry loop only ever acquires the slot after the latest index it
re-loaded at that attempt. -/
theorem borrow_write_retry_ne (reload : Nat → Nat) (avail : Nat → Nat → Bool) :
    ∀ fuel iter idx lat,
      Mailbox.borrow_write_retry reload avail iter fuel = some (idx, lat) →
        idx ≠ lat := by
  intro fuel
  induction fuel with
  | zero =>
    intro iter idx lat h
    simp [Mailbox.borrow_write_retry] at h
  | succ n ih =>
    intro iter idx lat h
    rw [Mailbox.borrow_write_retry] at h
    by_cases hc : avail iter ((reload iter + 1) % 3)
    · simp only [hc, if_true] at h
      obtain ⟨h1, h2⟩ := Prod.mk.injEq _ _ _ _ ▸ Option.some.inj h
      omega
    · simp only [hc, if_false] at h
      exact ih (iter + 1) idx lat h

/-- Claim C8: Mailbox::borrow_write never acquires the slot whose index
equals the latest value loaded at the start of that acquisition attempt
(the first phase tries only the two other slots; the retry loop tries only
the slot after the re-loaded latest), and dropping the writer handle
stores the written slot index into latest. -/
theorem borrow_write_avoids_latest :
    (∀ (latest0 : Nat) (avail0 : Nat → Bool) (reload : Nat → Nat)
        (avail : Nat → Nat → Bool) (fuel idx lat : Nat),
      Mailbox.borrow_write latest0 avail0 reload avail fuel = some (idx, lat) →
        idx ≠ lat) ∧
    (∀ (m : MailboxState) (w : MailboxWriter),
      (MailboxWriter.dropHandle m w).latest = w.index) := by
  constructor
  · intro latest0 avail0 reload avail fuel idx lat h
    rw [Mailbox.borrow_write] at h
    rcases hf : Mailbox.borrow_write_first latest0 avail0 with _ | i
    · rw [hf] at h
      exact borrow_write_retry_ne reload avail fuel 0 idx lat h
    · rw [hf] at h
      obtain ⟨h1, h2⟩ := Prod.mk.injEq _ _ _ _ ▸ Option.some.inj h
      rw [Mailbox.borrow_write_first] at hf
      by_cases hc : avail0 ((latest0 + 1) % 3)
      · simp only [hc, if_true] at hf
        obtain rfl := Option.some.inj hf
        omega
      · simp only [hc, if_false] at hf
        by_cases hd : avail0 ((latest0 + 2) % 3)
        · simp only [hd, if_true] at hf
          obtain rfl := Option.some.inj hf
          omega
        · simp [hd] at hf
  · intro m w
    rfl

/-- Claim C10: FifoState::new builds the host FIFO view at base + 8 bytes
with the unreduced length fifo_len, so the bounds check of at accepts
exactly the word indices whose bytes cover offsets [8, fifo_len + 8)
relative to the configured region base; in particular the last accepted
word starts at or past offset fifo_len, outside the configured region. -/
theorem fifo_view_bounds_shifted (base len : Nat)
    (hb : base ≠ 0) (hal : base % 4 = 0) (hlen : len % 4 = 0)
    (hbig : 32 < len) :
    FifoState.fifo_view base len = some { ptr := base + 8, len := len } ∧
    (∀ i, SharedMem.at_ok { ptr := base + 8, len := len } i = true ↔
      i * 4 < len) ∧
    (∀ off, (∃ i, SharedMem.at_ok { ptr := base + 8, len := len } i = true ∧
        8 + 4 * i ≤ off ∧ off < 8 + 4 * i + 4) ↔ (8 ≤ off ∧ off < len + 8)) ∧
    SharedMem.at_ok { ptr := base + 8, len := len } (len / 4 - 1) = true ∧
    len ≤ 8 + 4 * (len / 4 - 1) := by
  refine ⟨?_, ?_, ?_, ?_, ?_⟩
  · rw [FifoState.fifo_view, SharedMem.new, if_pos ⟨by omega, hlen, by omega⟩]
    norm_num [MAGIC_OFFSET]
  · intro i
    simp [SharedMem.at_ok]
  · intro off
    constructor
    · rintro ⟨i, hi, h1, h2⟩
      simp [SharedMem.at_ok] at hi
      omega
    · rintro ⟨h8, hlt⟩
      refine ⟨(off - 8) / 4, ?_, ?_, ?_⟩
      · simp [SharedMem.at_ok]
        omega
      · omega
      · omega
  · simp [SharedMem.at_ok]
    omega
  · omega

/-- Claim C10, witness: the view bounds at base 4, region length 36. -/
theorem fifo_view_bounds_shifted_witness :
    FifoState.fifo_view 4 36 = some { ptr := 4 + 8, len := 36 } ∧
    (∀ i, SharedMem.at_ok { ptr := 4 + 8, len := 36 } i = true ↔
      i * 4 < 36) ∧
    (∀ off, (∃ i, SharedMem.at_ok { ptr := 4 + 8, len := 36 } i = true ∧
        8 + 4 * i ≤ off ∧ off < 8 + 4 * i + 4) ↔ (8 ≤ off ∧ off < 36 + 8)) ∧
    SharedMem.at_ok { ptr := 4 + 8, len := 36 } (36 / 4 - 1) = true ∧
    36 ≤ 8 + 4 * (36 / 4 - 1) :=
  fifo_view_bounds_shifted 4 36 (by decide) (by decide) (by decide) (by decide)

end Svga
